import Mathlib

/-!
Shallow embedding of the client-side authorization and session-continuity
subsystem of the cms-back-office repository, together with theorems settling
the specification claims about it.

Embedded source files:
* `src/sidebar/sidebarRules.ts` — the composable rule engine
  (`matchPermission`, `and`, `or`, `hasPermission`, `hasFeature`,
  `isAuthenticated`, `hasRole`);
* `src/components/Secured.tsx` — the access-guard component, modelled as a
  pure decision function over its inputs;
* `AuthContext` (AuthProvider) — `verifySession` and `logout`, modelled as
  pure state-transition functions with the remote outcome as a parameter;
* `CompanyContext` (CompanyProvider) — `fetchCompanies`, the tenant-selector
  resolution algorithm, modelled as a pure function from the previous state,
  the persisted storage entry and the remote outcomes to the next state plus
  a trace of storage operations.

JavaScript strings are Lean `String`s, and the JavaScript string methods the
subsystem uses (`startsWith`, `endsWith`, `slice(0, -2)`, `trim`) are given
explicit character-list definitions over `String.data` so that every
definition evaluates inside the kernel; nullable values are `Option`; promise
rejection of a remote call is the `Except.error` case of an explicit outcome
parameter.  `Date.getTime` parsing of timestamps is an external collaborator
and is passed in as an abstract function `String → Int`.
-/

namespace CMS

/-! ## JavaScript string methods, as character-list operations -/

/-- JavaScript `s.startsWith(pre)`. -/
def jsStartsWith (s pre : String) : Bool :=
  pre.data.isPrefixOf s.data

/-- JavaScript `s.endsWith(suf)`. -/
def jsEndsWith (s suf : String) : Bool :=
  suf.data.isSuffixOf s.data

/-- JavaScript `s.slice(0, -n)` for `n ≤ s.length`: drop the last `n`
characters. -/
def jsDropRight (s : String) (n : Nat) : String :=
  ⟨s.data.take (s.data.length - n)⟩

/-- JavaScript `s.trim()`: strip whitespace from both ends. -/
def jsTrim (s : String) : String :=
  ⟨((s.data.dropWhile Char.isWhitespace).reverse.dropWhile Char.isWhitespace).reverse⟩

/-! ## Rule engine (`src/sidebar/sidebarRules.ts`) -/

/-- The user object inside a `RuleContext`
(`{ id: string; permissions: string[]; role?: string } | null`). -/
structure RuleUser where
  id : String
  permissions : List String
  role : Option String := none
deriving DecidableEq

/-- `RuleContext` from `sidebarRules.ts`: what rules evaluate against. -/
structure RuleContext where
  user : Option RuleUser
  permissions : List String
  features : Option (List String) := none
deriving DecidableEq

/-- `matchPermission(userPermissions, requiredPermission)`: exact membership,
or — when the required token ends with `".*"` — a `startsWith` test against
the token with its last two characters removed (`slice(0, -2)`). -/
def matchPermission (userPermissions : List String) (requiredPermission : String) : Bool :=
  if userPermissions.contains requiredPermission then
    true
  else if jsEndsWith requiredPermission ".*" then
    userPermissions.any (fun perm => jsStartsWith perm (jsDropRight requiredPermission 2))
  else
    false

/-- A rule is an object with a single `evaluate` method. -/
structure Rule where
  evaluate : RuleContext → Bool

/-- `and(...rules)`: every child must pass.  The source's `Array.isArray`
test on a rest parameter is always true, so the body is `rules.every`. -/
def and (rules : List Rule) : Rule :=
  ⟨fun context => rules.all (fun rule => rule.evaluate context)⟩

/-- `or(...rules)`: some child must pass (`rules.some`). -/
def or (rules : List Rule) : Rule :=
  ⟨fun context => rules.any (fun rule => rule.evaluate context)⟩

/-- `hasPermission(permission)` rule: defers to `matchPermission` on the
context's permission list. -/
def hasPermission (permission : String) : Rule :=
  ⟨fun context => matchPermission context.permissions permission⟩

/-- `hasFeature(feature)` rule: false when `features` is absent. -/
def hasFeature (feature : String) : Rule :=
  ⟨fun context =>
    match context.features with
    | none => false
    | some fs => fs.contains feature⟩

/-- `isAuthenticated()` rule: true iff the context's user is present. -/
def isAuthenticated : Rule :=
  ⟨fun context => context.user.isSome⟩

/-- `hasRole(role)` rule: user present and its `role` field equals `role`. -/
def hasRole (role : String) : Rule :=
  ⟨fun context =>
    match context.user with
    | none => false
    | some u => u.role == some role⟩

/-- The wildcard semantics the specification asserts for `hasPermission`:
some held permission starts with the pattern's stem followed by a trailing
dot (compare against `"blog."`, not bare `"blog"`). -/
def specWildcardMatch (userPermissions : List String) (requiredPermission : String) : Bool :=
  userPermissions.any (fun perm => jsStartsWith perm (jsDropRight requiredPermission 2 ++ "."))

/-! ## Access guard (`src/components/Secured.tsx`)

The `Secured` component reads `{ isAuthenticated, isLoading, user }` from the
auth context, where `AuthContext` defines `isAuthenticated := user !== null`;
the decision function therefore takes `isLoading` and `user` and derives
`isAuthenticated` from `user`.  Its remaining inputs are the `authenticated`,
`permissions` and `features` props (each nullable).  Rendering outcomes are
modelled by `Decision`. -/

/-- `UserCompany` from `AuthContext`: minimal company info delivered with the
identity (`{ id, name, logo_url? }`). -/
structure UserCompany where
  id : String
  name : String
  logo_url : Option String := none
deriving DecidableEq

/-- `User` from `AuthContext`, matching the `GET /auth/me` response shape. -/
structure User where
  id : String
  email : String
  name : String
  role : String
  status : String
  permissions : List String
  masterId : Option String := none
  companies : List UserCompany := []
deriving DecidableEq

/-- The five possible rendering outcomes of the `Secured` component. -/
inductive Decision where
  | pending
  | redirectToLogin
  | redirectToHome
  | forbidden
  | allow
deriving DecidableEq

/-- The `Secured` component as a pure decision function.  Mirrors the
component body: loader while `isLoading`; `Navigate` to login when
`authenticated === true` and not authenticated; `Navigate` to the dashboard
when `authenticated === false`, authenticated and not loading; the forbidden
message when `permissions` is a non-empty list, `user` is present and no
required permission is literally contained in `user.permissions`; the feature
check is a no-op; otherwise the protected children. -/
def Secured (isLoading : Bool) (user : Option User) (authenticated : Option Bool)
    (permissions : Option (List String)) (_features : Option (List String)) : Decision :=
  let isAuthenticated : Bool := user.isSome
  if isLoading then
    .pending
  else if authenticated = some true ∧ isAuthenticated = false then
    .redirectToLogin
  else if authenticated = some false ∧ isAuthenticated = true ∧ isLoading = false then
    .redirectToHome
  else
    match permissions, user with
    | some ps, some u =>
      if 0 < ps.length ∧ ps.any (fun permission => u.permissions.contains permission) = false then
        .forbidden
      else
        .allow
    | _, _ => .allow

/-- First-match-wins chain over Boolean-guarded outcomes, used to state the
decision-ordering claim. -/
def firstMatch (dflt : Decision) : List (Bool × Decision) → Decision
  | [] => dflt
  | (cond, d) :: rest => if cond then d else firstMatch dflt rest

/-- The guard's permission condition in isolation: a non-empty required list,
a present user, and no required token literally held. -/
def permissionsUnmet (permissions : Option (List String)) (user : Option User) : Bool :=
  match permissions, user with
  | some ps, some u =>
    decide (0 < ps.length) && !(ps.any (fun permission => u.permissions.contains permission))
  | _, _ => false

/-! ## Session manager (`AuthContext`) -/

/-- The auth context's `isAuthenticated` value: `user !== null`. -/
def isAuthenticatedOf (user : Option User) : Bool :=
  user.isSome

/-- Result of one `verifySession()` invocation: the user and loading flag
afterwards, and whether the remote `GET /auth/me` call was issued. -/
structure VerifyOutcome where
  user : Option User
  isLoading : Bool
  remoteCalled : Bool
deriving DecidableEq

/-- `verifySession()`: if a user is already held, only settle `isLoading` and
return without calling the API.  Otherwise issue `GET /auth/me`; a successful
response with non-null data and a truthy `id` stores the user, any other
success stores `null`, and any rejection (including 401) stores `null`; the
`finally` block clears `isLoading` in every case.  The remote outcome is the
`remote` parameter: `.ok payload` is a resolved response whose `data` is
`payload`, `.error` a rejected one. -/
def verifySession (user : Option User) (remote : Except Unit (Option User)) : VerifyOutcome :=
  match user with
  | some u => ⟨some u, false, false⟩
  | none =>
    match remote with
    | .ok payload =>
      match payload with
      | some u => if u.id ≠ "" then ⟨some u, false, true⟩ else ⟨none, false, true⟩
      | none => ⟨none, false, true⟩
    | .error _ => ⟨none, false, true⟩

/-- Result of one `logout()` invocation. -/
structure LogoutOutcome where
  user : Option User
  loggedError : Bool
deriving DecidableEq

/-- `logout()`: `POST` to the sign-out endpoint inside `try`; a rejection is
caught and logged; the `finally` block sets the user to `null` in both
cases. -/
def logout (_user : Option User) (remote : Except Unit Unit) : LogoutOutcome :=
  match remote with
  | .ok _ => ⟨none, false⟩
  | .error _ => ⟨none, true⟩

/-! ## Tenant selector (`CompanyContext`, `fetchCompanies`) -/

/-- `Company` from `companyService.ts` (the `settings` record is never read
by this logic and is omitted). -/
structure Company where
  id : String
  master_id : String
  name : String
  slug : String
  domain : Option String := none
  description : Option String := none
  logo_url : Option String := none
  theme : Option String := none
  status : Option String := none
  created_at : String
  updated_at : String
deriving DecidableEq

/-- One `localStorage` operation on the `"csid"` slot, in execution order. -/
inductive StorageOp where
  | getItem
  | setItem (id : String)
  | removeItem
deriving DecidableEq

/-- The state left behind by one `fetchCompanies()` run: the `companies` and
`selectedCompany` React state, the `localStorage` entry under
`SELECTED_COMPANY_STORAGE_KEY`, and the trace of storage operations performed
(`isLoading` is `false` on every exit path and is omitted). -/
structure FetchOutcome where
  companies : List Company
  selectedCompany : Option Company
  stored : Option String
  ops : List StorageOp
deriving DecidableEq

/-- JavaScript `x || null` on a nullable string: an empty string is falsy. -/
def jsOrNull : Option String → Option String
  | some s => if s = "" then none else some s
  | none => none

/-- The minimal fallback company synthesized from `user.companies[0]` when a
company fetch fails (`master_id` is `user.masterId || ''`). -/
def fallbackCompany (user : User) (uc : UserCompany) : Company :=
  { id := uc.id
    name := uc.name
    logo_url := jsOrNull uc.logo_url
    master_id := user.masterId.getD ""
    slug := ""
    description := none
    theme := none
    status := none
    created_at := ""
    updated_at := "" }

/-- Stable ascending insertion by the parsed `created_at` timestamp: an
element is placed before the first strictly later one. -/
def insertByCreated (getTime : String → Int) (c : Company) : List Company → List Company
  | [] => [c]
  | d :: ds =>
    if getTime c.created_at < getTime d.created_at then c :: d :: ds
    else d :: insertByCreated getTime c ds

/-- The `[...fetchedCompanies].sort((a, b) => getTime(a) - getTime(b))` step:
a stable ascending sort by creation timestamp. -/
def sortByCreated (getTime : String → Int) (l : List Company) : List Company :=
  l.foldl (fun acc c => insertByCreated getTime c acc) []

/-- Lines 122–135 of the provider: `fetchedCompanies.find(c => c.id ===
defaultCompanyId) || null`, then — still null and list non-empty — the
earliest-created company. -/
def resolveDefault (fetched : List Company) (defaultCompanyId : String)
    (getTime : String → Int) : Option Company :=
  match fetched.find? (fun c => c.id == defaultCompanyId) with
  | some c => some c
  | none =>
    if 0 < fetched.length then (sortByCreated getTime fetched).head? else none

/-- Lines 122–141: resolve `defaultCompany` and, when found, select it and
persist its id; otherwise leave the selection and storage as they are. -/
def applyDefault (fetched : List Company) (prevSelected : Option Company)
    (storedNow : Option String) (opsSoFar : List StorageOp)
    (defaultCompanyId : String) (getTime : String → Int) : FetchOutcome :=
  match resolveDefault fetched defaultCompanyId getTime with
  | some dc => ⟨fetched, some dc, some dc.id, opsSoFar ++ [.setItem dc.id]⟩
  | none => ⟨fetched, prevSelected, storedNow, opsSoFar⟩

/-- Lines 97–141: the persisted-id branch.  `savedCompanyId` was read by
`getItem`; when it is truthy and non-blank after trimming, look its trimmed
value up in the fetched list — on a hit select and persist it, on a miss
remove the stale entry and fall through to the default resolution; when it is
absent or blank, fall through directly. -/
def continueSaved (fetched : List Company) (prevSelected : Option Company)
    (stored : Option String) (defaultCompanyId : String)
    (getTime : String → Int) : FetchOutcome :=
  match stored with
  | some saved =>
    if saved ≠ "" ∧ jsTrim saved ≠ "" then
      match fetched.find? (fun c => c.id == jsTrim saved) with
      | some savedCompany =>
        ⟨fetched, some savedCompany, some savedCompany.id,
          [.getItem, .setItem savedCompany.id]⟩
      | none =>
        applyDefault fetched prevSelected none [.getItem, .removeItem]
          defaultCompanyId getTime
    else
      applyDefault fetched prevSelected stored [.getItem] defaultCompanyId getTime
  | none =>
    applyDefault fetched prevSelected stored [.getItem] defaultCompanyId getTime

/-- `fetchCompanies()` as a pure function.  Inputs: the current auth user,
the provider's previous `companies` and `selectedCompany` state, the
persisted `"csid"` entry, and the outcomes of the remote collaborators
(`companyService.list`, `companyService.get` by id) plus the timestamp
parser.  Paths, in source order: no user → return unchanged; no
`user.companies[0]` → clear state; `team_member` → fetch the single assigned
company by id, falling back to the membership stub, and persist its id;
otherwise list all companies (a rejection lands in the outer `catch`, which
selects the membership stub without touching storage), keep a still-listed
in-memory selection, else consult the persisted id (`continueSaved`). -/
def fetchCompanies (user : Option User) (prevCompanies : List Company)
    (prevSelected : Option Company) (stored : Option String)
    (listResult : Except Unit (List Company))
    (getResult : String → Except Unit Company)
    (getTime : String → Int) : FetchOutcome :=
  match user with
  | none => ⟨prevCompanies, prevSelected, stored, []⟩
  | some u =>
    match u.companies.head? with
    | none => ⟨[], none, stored, []⟩
    | some uc0 =>
      if u.role = "team_member" then
        match getResult uc0.id with
        | .ok companyDetails =>
          ⟨[companyDetails], some companyDetails, some companyDetails.id,
            [.setItem companyDetails.id]⟩
        | .error _ =>
          let fb := fallbackCompany u uc0
          ⟨[fb], some fb, some fb.id, [.setItem fb.id]⟩
      else
        match listResult with
        | .error _ =>
          let fb := fallbackCompany u uc0
          ⟨[fb], some fb, stored, []⟩
        | .ok fetched =>
          match prevSelected with
          | some sel =>
            if (fetched.find? (fun c => c.id == sel.id)).isSome then
              ⟨fetched, some sel, some sel.id, [.getItem, .setItem sel.id]⟩
            else
              continueSaved fetched (some sel) stored uc0.id getTime
          | none => continueSaved fetched none stored uc0.id getTime

/-! ## Concrete data used by witnesses and counterexamples -/

/-- An empty evaluation context. -/
def emptyContext : RuleContext :=
  ⟨none, [], none⟩

/-- An authenticated owner holding exactly the `"blog.create"` permission,
with a single membership in company `"b"`. -/
def sampleOwner : User :=
  { id := "u1", email := "owner@example.com", name := "Owner", role := "owner",
    status := "active", permissions := ["blog.create"], masterId := none,
    companies := [{ id := "b", name := "Company B" }] }

/-- A team member assigned to company `"b"`. -/
def sampleTeamMember : User :=
  { id := "u2", email := "tm@example.com", name := "Member", role := "team_member",
    status := "active", permissions := [], masterId := some "m1",
    companies := [{ id := "b", name := "Company B" }] }

/-- Tenant `"a"`, created 2024-01-01. -/
def tenantA : Company :=
  { id := "a", master_id := "m1", name := "Tenant A", slug := "a",
    created_at := "2024-01-01", updated_at := "2024-01-01" }

/-- Tenant `"b"`, created 2024-02-01. -/
def tenantB : Company :=
  { id := "b", master_id := "m1", name := "Tenant B", slug := "b",
    created_at := "2024-02-01", updated_at := "2024-02-01" }

/-- A get-by-id collaborator that always rejects. -/
def noRemote : String → Except Unit Company :=
  fun _ => .error ()

/-- A timestamp parser ordering `"2024-01-01"` before everything else. -/
def sampleTime : String → Int :=
  fun s => if s = "2024-01-01" then 0 else 1

/-! ## Claim C1 — wildcard permission matching -/

/-- Claim C1, counterexample: the claim says a wildcard token matches iff
some held permission starts with the stem followed by a trailing dot, and in
particular that `"blog.*"` does not match `"blogging.create"`.  On the code,
`matchPermission` compares against the bare stem `"blog"` (the `".*"` suffix
is removed by `slice(0, -2)` and no dot is appended), so `"blog.*"` does
match the held set `["blogging.create"]` even though no held permission
starts with `"blog."`. -/
theorem matchPermission_dotted_stem_refuted :
    matchPermission ["blogging.create"] "blog.*" = true ∧
    jsEndsWith "blog.*" ".*" = true ∧
    specWildcardMatch ["blogging.create"] "blog.*" = false := by
  decide

/-- Claim C1 (amended): for every held set `P` and token `T` ending in
`".*"`, `matchPermission P T` is true iff `T` itself is held verbatim or some
held permission starts with the bare stem `T` minus its last two characters —
without a trailing dot, so `"blog.*"` matches `"blogging.create"` as well as
`"blog.create"`. -/
theorem matchPermission_wildcard_bare_stem (P : List String) (T : String)
    (h : jsEndsWith T ".*" = true) :
    matchPermission P T =
      (P.contains T || P.any (fun perm => jsStartsWith perm (jsDropRight T 2))) := by
  unfold matchPermission
  rcases hc : P.contains T with _ | _
  · simp [hc, h]
  · simp [hc]

/-- Claim C1, witness: the amended statement at the held set
`["blog.create"]` and token `"blog.*"`. -/
theorem matchPermission_wildcard_bare_stem_witness :
    matchPermission ["blog.create"] "blog.*" =
      (["blog.create"].contains "blog.*" ||
        ["blog.create"].any (fun perm => jsStartsWith perm (jsDropRight "blog.*" 2))) :=
  matchPermission_wildcard_bare_stem ["blog.create"] "blog.*" (by decide)

/-! ## Claim C2 — the guard's permission matching -/

/-- Claim C2, counterexample: the claim says the guard's permission check is
OR-ing `matchPermission` over the required set.  With the authenticated user
holding `["blog.create"]` and required permissions `["blog.*"]`,
`matchPermission` accepts (wildcard match), yet `Secured` returns
`forbidden`: the component tests literal membership via
`user.permissions.includes`, never `matchPermission`. -/
theorem Secured_wildcard_refuted :
    Secured false (some sampleOwner) (some true) (some ["blog.*"]) none =
      Decision.forbidden ∧
    (["blog.*"].any (fun t => matchPermission sampleOwner.permissions t)) = true := by
  decide

/-- Claim C2 (amended): for a non-empty required-permission list and an
authenticated identity (and no public-only redirect in force), the guard
returns `forbidden` iff no required token is literally contained in the held
permissions — exact membership, not the rule engine's wildcard semantics. -/
theorem Secured_exact_membership (u : User) (auth : Option Bool)
    (ps : List String) (fs : Option (List String))
    (hne : ps ≠ []) (hauth : auth ≠ some false) :
    Secured false (some u) auth (some ps) fs =
      (if ps.any (fun t => u.permissions.contains t) then .allow else .forbidden) := by
  have hlen : 0 < ps.length := List.length_pos.mpr hne
  rcases hany : ps.any (fun t => u.permissions.contains t) with _ | _ <;>
    simp [Secured, hauth, hlen, hany] <;>
    simpa using hany

/-- Claim C2, witness: the amended statement at the authenticated owner and
the required list `["blog.create"]`. -/
theorem Secured_exact_membership_witness :
    Secured false (some sampleOwner) (some true) (some ["blog.create"]) none =
      (if ["blog.create"].any (fun t => sampleOwner.permissions.contains t)
       then Decision.allow else .forbidden) :=
  Secured_exact_membership sampleOwner (some true) ["blog.create"] none
    (by decide) (by decide)

/-! ## Claim C3 — decision order of the guard -/

/-- Claim C3: for every input, the guard returns `pending` whenever the
session is still verifying (`isLoading`), and only otherwise evaluates the
remaining rules as a first-match-wins chain in the order `redirectToLogin`,
`redirectToHome`, `forbidden`, with `allow` as the default. -/
theorem Secured_decision_order (isLoading : Bool) (user : Option User)
    (authenticated : Option Bool) (permissions : Option (List String))
    (features : Option (List String)) :
    Secured isLoading user authenticated permissions features =
      (if isLoading then .pending
       else
         firstMatch .allow
           [(decide (authenticated = some true) && !user.isSome, .redirectToLogin),
            (decide (authenticated = some false) && user.isSome, .redirectToHome),
            (permissionsUnmet permissions user, .forbidden)]) := by
  cases isLoading
  · rcases authenticated with _ | (_ | _) <;> rcases user with _ | u <;>
      rcases permissions with _ | ps <;>
      simp [Secured, firstMatch, permissionsUnmet]
  · rfl

/-! ## Claim C5 — empty `and`/`or` argument lists -/

/-- Claim C5, counterexample: the claim says a zero-ary `and`/`or` is
rejected at construction time and yields no boolean-valued rule.  In the
code, both constructions succeed and evaluate: `and()` evaluates to `true`
and `or()` evaluates to `false` on the empty context. -/
theorem and_or_empty_refuted :
    (CMS.and []).evaluate emptyContext = true ∧
    (CMS.or []).evaluate emptyContext = false := by
  decide

/-- Claim C5 (amended): empty argument lists are accepted, `and` of no rules
evaluating to `true` and `or` of no rules to `false`; for every argument
list, `and` evaluates true iff every child does and `or` evaluates true iff
at least one child does. -/
theorem and_or_semantics (rules : List Rule) (context : RuleContext) :
    (CMS.and []).evaluate context = true ∧
    (CMS.or []).evaluate context = false ∧
    ((CMS.and rules).evaluate context = true ↔
      ∀ r ∈ rules, r.evaluate context = true) ∧
    ((CMS.or rules).evaluate context = true ↔
      ∃ r ∈ rules, r.evaluate context = true) := by
  refine ⟨rfl, rfl, ?_, ?_⟩
  · simp [CMS.and, List.all_eq_true]
  · simp [CMS.or, List.any_eq_true]

/-! ## Claim C9 — anonymous users and permission requirements -/

/-- Claim C9: with verification settled, no identity held and the
`authenticated` prop not `true`, the guard renders the protected content
(`allow`) whatever the required-permission list is: the forbidden branch
requires a present user. -/
theorem Secured_anonymous_allows (auth : Option Bool) (ps : List String)
    (fs : Option (List String)) (hauth : auth ≠ some true) :
    Secured false none auth (some ps) fs = .allow := by
  simp [Secured, hauth]

/-- Claim C9, witness: an anonymous session with a non-empty required list
is allowed through. -/
theorem Secured_anonymous_allows_witness :
    Secured false none none (some ["blog.create"]) none = .allow :=
  Secured_anonymous_allows none ["blog.create"] none (by decide)

/-! ## Claim C6 — verification skipped when an identity is held -/

/-- Claim C6: whatever the remote collaborator would answer, invoking
`verifySession` with an identity already in memory issues no remote call,
keeps the identity unchanged and only settles the loading flag. -/
theorem verifySession_skips_when_user_held (u : User)
    (remote : Except Unit (Option User)) :
    (verifySession (some u) remote).remoteCalled = false ∧
    (verifySession (some u) remote).user = some u ∧
    (verifySession (some u) remote).isLoading = false :=
  ⟨rfl, rfl, rfl⟩

/-! ## Claim C8 — logout clears the identity unconditionally -/

/-- Claim C8: for both outcomes of the remote sign-out call, `logout` leaves
no identity in memory, so the derived session state is anonymous. -/
theorem logout_clears_identity (u : Option User) (remote : Except Unit Unit) :
    (logout u remote).user = none ∧
    isAuthenticatedOf (logout u remote).user = false := by
  cases remote <;> exact ⟨rfl, rfl⟩

/-! ## Claim C4 — membership match beats earliest-created fallback -/

/-- Claim C4: with empty persisted storage, no in-memory selection and a
multi-tenant role, when the identity's first membership id appears in the
fetched list the resolved tenant is that membership's entry of the list (and
its id is persisted) — the earliest-created fallback is not consulted. -/
theorem fetchCompanies_membership_priority (u : User) (uc0 : UserCompany)
    (pc fetched : List Company) (cM : Company)
    (gr : String → Except Unit Company) (gt : String → Int)
    (h0 : u.companies.head? = some uc0)
    (hrole : u.role ≠ "team_member")
    (hfound : fetched.find? (fun c => c.id == uc0.id) = some cM) :
    (fetchCompanies (some u) pc none none (.ok fetched) gr gt).selectedCompany =
      some cM ∧
    (fetchCompanies (some u) pc none none (.ok fetched) gr gt).stored =
      some cM.id := by
  simp [fetchCompanies, continueSaved, applyDefault, resolveDefault, h0, hrole, hfound]

/-- Claim C4, witness: the spec's concrete scenario — membership in `"b"`,
fetched list `[tenantA, tenantB]` with `"a"` created earlier — resolves to
tenant `"b"`. -/
theorem fetchCompanies_membership_priority_witness :
    (fetchCompanies (some sampleOwner) [] none none (.ok [tenantA, tenantB])
        noRemote sampleTime).selectedCompany = some tenantB ∧
    (fetchCompanies (some sampleOwner) [] none none (.ok [tenantA, tenantB])
        noRemote sampleTime).stored = some tenantB.id :=
  fetchCompanies_membership_priority sampleOwner ⟨"b", "Company B", none⟩ []
    [tenantA, tenantB] tenantB noRemote sampleTime (by decide) (by decide) (by decide)

/-! ## Claim C7 — stale persisted id is removed and falls through -/

/-- Helper: when the persisted id is non-blank but absent from the fetched
list, `continueSaved` removes it and runs the default resolution with no
persisted entry. -/
theorem continueSaved_stale (fetched : List Company) (prevSel : Option Company)
    (s dId : String) (gt : String → Int)
    (hs : jsTrim s = s) (hs0 : s ≠ "")
    (hstale : fetched.find? (fun c => c.id == s) = none) :
    continueSaved fetched prevSel (some s) dId gt =
      applyDefault fetched prevSel none [.getItem, .removeItem] dId gt := by
  simp [continueSaved, hs, hs0, hstale]

/-- Helper: the ops already traced survive the default resolution. -/
theorem applyDefault_ops_mem (op : StorageOp) (fetched : List Company)
    (prevSel : Option Company) (st : Option String) (ops : List StorageOp)
    (dId : String) (gt : String → Int) (h : op ∈ ops) :
    op ∈ (applyDefault fetched prevSel st ops dId gt).ops := by
  unfold applyDefault
  cases resolveDefault fetched dId gt <;> simp [h]

/-- Helper: the resolved selection and resulting persisted entry of the
default resolution do not depend on the ops traced so far. -/
theorem applyDefault_sel_stored (fetched : List Company)
    (prevSel : Option Company) (st : Option String)
    (ops1 ops2 : List StorageOp) (dId : String) (gt : String → Int) :
    (applyDefault fetched prevSel st ops1 dId gt).selectedCompany =
      (applyDefault fetched prevSel st ops2 dId gt).selectedCompany ∧
    (applyDefault fetched prevSel st ops1 dId gt).stored =
      (applyDefault fetched prevSel st ops2 dId gt).stored := by
  unfold applyDefault
  cases resolveDefault fetched dId gt <;> simp

/-- Claim C7: a non-blank persisted id absent from the fetched list (with no
still-valid in-memory selection) is removed from storage, and the resolved
tenant and resulting persisted entry equal those of the same run with no
persisted id at all. -/
theorem fetchCompanies_stale_persisted (u : User) (uc0 : UserCompany)
    (pc fetched : List Company) (prevSel : Option Company) (s : String)
    (gr : String → Except Unit Company) (gt : String → Int)
    (h0 : u.companies.head? = some uc0)
    (hrole : u.role ≠ "team_member")
    (hs : jsTrim s = s) (hs0 : s ≠ "")
    (hstale : fetched.find? (fun c => c.id == s) = none)
    (hsel : ∀ sel, prevSel = some sel →
      fetched.find? (fun c => c.id == sel.id) = none) :
    StorageOp.removeItem ∈
      (fetchCompanies (some u) pc prevSel (some s) (.ok fetched) gr gt).ops ∧
    (fetchCompanies (some u) pc prevSel (some s) (.ok fetched) gr gt).selectedCompany =
      (fetchCompanies (some u) pc prevSel none (.ok fetched) gr gt).selectedCompany ∧
    (fetchCompanies (some u) pc prevSel (some s) (.ok fetched) gr gt).stored =
      (fetchCompanies (some u) pc prevSel none (.ok fetched) gr gt).stored := by
  have hks : fetchCompanies (some u) pc prevSel (some s) (.ok fetched) gr gt =
      applyDefault fetched prevSel none [.getItem, .removeItem] uc0.id gt := by
    rcases prevSel with _ | sel
    · simp [fetchCompanies, h0, hrole,
        continueSaved_stale fetched none s uc0.id gt hs hs0 hstale]
    · simp [fetchCompanies, h0, hrole, hsel sel rfl,
        continueSaved_stale fetched (some sel) s uc0.id gt hs hs0 hstale]
  have hks0 : fetchCompanies (some u) pc prevSel none (.ok fetched) gr gt =
      applyDefault fetched prevSel none [.getItem] uc0.id gt := by
    rcases prevSel with _ | sel
    · simp [fetchCompanies, h0, hrole, continueSaved]
    · simp [fetchCompanies, h0, hrole, hsel sel rfl, continueSaved]
  rw [hks, hks0]
  exact ⟨applyDefault_ops_mem _ _ _ _ _ _ _ (by simp),
    (applyDefault_sel_stored fetched prevSel none _ _ uc0.id gt).1,
    (applyDefault_sel_stored fetched prevSel none _ _ uc0.id gt).2⟩

/-- Claim C7, witness: persisted id `"zzz"` with fetched list `[tenantA,
tenantB]` is removed, and the run resolves exactly as with empty storage. -/
theorem fetchCompanies_stale_persisted_witness :
    StorageOp.removeItem ∈
      (fetchCompanies (some sampleOwner) [] none (some "zzz")
        (.ok [tenantA, tenantB]) noRemote sampleTime).ops ∧
    (fetchCompanies (some sampleOwner) [] none (some "zzz")
        (.ok [tenantA, tenantB]) noRemote sampleTime).selectedCompany =
      (fetchCompanies (some sampleOwner) [] none none
        (.ok [tenantA, tenantB]) noRemote sampleTime).selectedCompany ∧
    (fetchCompanies (some sampleOwner) [] none (some "zzz")
        (.ok [tenantA, tenantB]) noRemote sampleTime).stored =
      (fetchCompanies (some sampleOwner) [] none none
        (.ok [tenantA, tenantB]) noRemote sampleTime).stored :=
  fetchCompanies_stale_persisted sampleOwner ⟨"b", "Company B", none⟩ []
    [tenantA, tenantB] none "zzz" noRemote sampleTime (by decide) (by decide)
    (by decide) (by decide) (by decide) (by intro sel h; cases h)

/-! ## Claim C10 — team members never read the persisted id -/

/-- Claim C10: for a `team_member` identity the run performs no storage read,
and — when a first membership exists — the selection is the company fetched
by that membership's id (or, on fetch failure, the minimal record synthesized
from the membership stub) and the persisted entry is overwritten with that
company's id. -/
theorem fetchCompanies_team_member (u : User) (pc : List Company)
    (prevSel : Option Company) (stored : Option String)
    (lr : Except Unit (List Company)) (gr : String → Except Unit Company)
    (gt : String → Int) (hrole : u.role = "team_member") :
    StorageOp.getItem ∉ (fetchCompanies (some u) pc prevSel stored lr gr gt).ops ∧
    (∀ uc0, u.companies.head? = some uc0 →
      (fetchCompanies (some u) pc prevSel stored lr gr gt).selectedCompany =
        (match gr uc0.id with
          | .ok d => some d
          | .error _ => some (fallbackCompany u uc0)) ∧
      (fetchCompanies (some u) pc prevSel stored lr gr gt).stored =
        (match gr uc0.id with
          | .ok d => some d.id
          | .error _ => some uc0.id)) := by
  rcases hh : u.companies.head? with _ | uc0
  · refine ⟨by simp [fetchCompanies, hh], ?_⟩
    intro uc1 h1
    exact absurd h1 (by simp)
  · refine ⟨?_, ?_⟩
    · rcases hgr : gr uc0.id with _ | d <;> simp [fetchCompanies, hh, hrole, hgr]
    · intro uc1 h1
      injection h1 with h2
      subst h2
      rcases hgr : gr uc0.id with _ | d <;>
        exact ⟨by simp [fetchCompanies, hh, hrole, hgr, fallbackCompany],
          by simp [fetchCompanies, hh, hrole, hgr, fallbackCompany]⟩

/-- Claim C10, witness: the team member with a stale persisted id `"a"` and a
failing company fetch — no storage read happens. -/
theorem fetchCompanies_team_member_witness :
    StorageOp.getItem ∉
      (fetchCompanies (some sampleTeamMember) [] none (some "a")
        (.ok [tenantA]) noRemote sampleTime).ops :=
  (fetchCompanies_team_member sampleTeamMember [] none (some "a")
    (.ok [tenantA]) noRemote sampleTime rfl).1

end CMS
